import Mathlib

/-!
Shallow embedding of the whosay monitoring engine (Go) used to check the
natural-language specification against the code.

Conventions of the embedding:
- Go `float64` values are modelled as `ℚ` (exact rational arithmetic); all
  concrete values appearing in the claims are exactly representable.
- Go `uint64` values are modelled as `Nat` together with explicit wrapping
  (`% 2^64`) where Go's modular arithmetic matters.
- `time.Time` values are modelled as abstract `Nat` tokens supplied by the
  caller (the code only stores and compares them in the verified paths).
- Go maps are modelled as association lists; where Go map iteration order
  is observable it is made an explicit input (a list enumeration).
- Stateful methods become pure functions from state to state.
-/

namespace Whosay

/-- AlertLevel defines the severity of an alert (src/internal/alerts/alerts.go). -/
inductive AlertLevel where
  | Info : AlertLevel
  | Warning : AlertLevel
  | Critical : AlertLevel
deriving DecidableEq, Repr

/-- Alert represents a monitoring alert (src/internal/alerts/alerts.go).
The `Time` field is the abstract timestamp token passed for `time.Now()`. -/
structure Alert where
  Level : AlertLevel
  Title : String
  Message : String
  Resource : String
  Value : ℚ
  Threshold : ℚ
  Time : Nat
  Acknowledged : Bool
deriving DecidableEq, Repr

/-- ThresholdConfig defines alert thresholds for resources
(src/internal/alerts/alerts.go). -/
structure ThresholdConfig where
  CPUWarning : ℚ
  CPUCritical : ℚ
  MemoryWarning : ℚ
  MemoryCritical : ℚ
  DiskWarning : ℚ
  DiskCritical : ℚ
deriving DecidableEq, Repr

/-- DefaultThresholds returns sensible default threshold values
(src/internal/alerts/alerts.go lines 45-54). -/
def DefaultThresholds : ThresholdConfig :=
  { CPUWarning := 75
    CPUCritical := 90
    MemoryWarning := 80
    MemoryCritical := 95
    DiskWarning := 85
    DiskCritical := 95 }

/-- AlertManager handles creation and storage of alerts
(src/internal/alerts/alerts.go lines 56-62). -/
structure AlertManager where
  Alerts : List Alert
  Thresholds : ThresholdConfig
  MaxAlerts : Nat
  EnableAlerts : Bool
deriving DecidableEq, Repr

/-- NewAlertManager creates a new alert manager with default settings
(src/internal/alerts/alerts.go lines 64-72). -/
def NewAlertManager : AlertManager :=
  { Alerts := []
    Thresholds := DefaultThresholds
    MaxAlerts := 100
    EnableAlerts := true }

/-- round10 rounds `q * 10` to the nearest integer, ties to even, computed on
the numerator and denominator directly so that it kernel-reduces. Here
`q * 10 = (q.num * 10) / q.den` and `f` is the floor of that quotient. -/
def round10 (q : ℚ) : ℤ :=
  let n10 : ℤ := q.num * 10
  let d : ℤ := (q.den : ℤ)
  let f : ℤ := Int.fdiv n10 d
  let r2 : ℤ := 2 * (n10 - f * d)
  if r2 < d then f
  else if d < r2 then f + 1
  else if f % 2 = 0 then f else f + 1

/-- fmtF1 models Go `fmt.Sprintf("%.1f", x)` on our rational embedding of
float64: round `x * 10` to the nearest integer (ties to even, as Go's
correctly-rounding formatter does) and print with one digit after the dot. -/
def fmtF1 (q : ℚ) : String :=
  let n : ℤ := round10 q
  if n < 0 then
    "-" ++ toString ((-n).toNat / 10) ++ "." ++ toString ((-n).toNat % 10)
  else
    toString (n.toNat / 10) ++ "." ++ toString (n.toNat % 10)

/-- strContains s sub means `sub` occurs as a contiguous substring of `s`
(models Go `strings.Contains` / "the message embeds ..."). -/
def strContains (s sub : String) : Prop := sub.data <:+: s.data

instance (s sub : String) : Decidable (strContains s sub) :=
  inferInstanceAs (Decidable (sub.data <:+: s.data))

/-- AddAlert adds a new alert to the manager
(src/internal/alerts/alerts.go lines 75-101): if alerts are disabled it
returns immediately; otherwise the new alert is prepended (reverse
chronological order) and the store truncated to `MaxAlerts`.
`PrintAlert` only writes to the console and is not modelled. -/
def AddAlert (am : AlertManager) (level : AlertLevel)
    (title message resource : String) (value threshold : ℚ) (now : Nat) :
    AlertManager :=
  if !am.EnableAlerts then am
  else
    let alert : Alert :=
      { Level := level, Title := title, Message := message,
        Resource := resource, Value := value, Threshold := threshold,
        Time := now, Acknowledged := false }
    { am with Alerts := (alert :: am.Alerts).take am.MaxAlerts }

/-- CheckCPU creates alerts for CPU usage if needed
(src/internal/alerts/alerts.go lines 104-124). -/
def CheckCPU (am : AlertManager) (usage : ℚ) (now : Nat) : AlertManager :=
  if usage ≥ am.Thresholds.CPUCritical then
    AddAlert am .Critical "Critical CPU Usage"
      ("CPU usage is at " ++ fmtF1 usage ++
        "%, exceeding the critical threshold of " ++
        fmtF1 am.Thresholds.CPUCritical ++ "%")
      "CPU" usage am.Thresholds.CPUCritical now
  else if usage ≥ am.Thresholds.CPUWarning then
    AddAlert am .Warning "High CPU Usage"
      ("CPU usage is at " ++ fmtF1 usage ++
        "%, exceeding the warning threshold of " ++
        fmtF1 am.Thresholds.CPUWarning ++ "%")
      "CPU" usage am.Thresholds.CPUWarning now
  else am

/-- CheckMemory creates alerts for memory usage if needed
(src/internal/alerts/alerts.go lines 127-147). -/
def CheckMemory (am : AlertManager) (usage : ℚ) (now : Nat) : AlertManager :=
  if usage ≥ am.Thresholds.MemoryCritical then
    AddAlert am .Critical "Critical Memory Usage"
      ("Memory usage is at " ++ fmtF1 usage ++
        "%, exceeding the critical threshold of " ++
        fmtF1 am.Thresholds.MemoryCritical ++ "%")
      "Memory" usage am.Thresholds.MemoryCritical now
  else if usage ≥ am.Thresholds.MemoryWarning then
    AddAlert am .Warning "High Memory Usage"
      ("Memory usage is at " ++ fmtF1 usage ++
        "%, exceeding the warning threshold of " ++
        fmtF1 am.Thresholds.MemoryWarning ++ "%")
      "Memory" usage am.Thresholds.MemoryWarning now
  else am

/-- CheckDisk creates alerts for disk usage if needed
(src/internal/alerts/alerts.go lines 150-170). -/
def CheckDisk (am : AlertManager) (usage : ℚ) (path : String) (now : Nat) :
    AlertManager :=
  if usage ≥ am.Thresholds.DiskCritical then
    AddAlert am .Critical "Critical Disk Usage"
      ("Disk usage for " ++ path ++ " is at " ++ fmtF1 usage ++
        "%, exceeding the critical threshold of " ++
        fmtF1 am.Thresholds.DiskCritical ++ "%")
      "Disk" usage am.Thresholds.DiskCritical now
  else if usage ≥ am.Thresholds.DiskWarning then
    AddAlert am .Warning "High Disk Usage"
      ("Disk usage for " ++ path ++ " is at " ++ fmtF1 usage ++
        "%, exceeding the warning threshold of " ++
        fmtF1 am.Thresholds.DiskWarning ++ "%")
      "Disk" usage am.Thresholds.DiskWarning now
  else am

/-- GetActiveAlerts returns all non-acknowledged alerts
(src/internal/alerts/alerts.go lines 184-192). -/
def GetActiveAlerts (am : AlertManager) : List Alert :=
  am.Alerts.filter (fun a => !a.Acknowledged)

/-- ConfigureAlertThresholds updates the alert thresholds
(src/internal/collectors/alerts.go lines 118-151): every warning value
that is ≥ its critical value is replaced by critical − 10, the manager's
thresholds are overwritten, and one informational alert is added. -/
def ConfigureAlertThresholds (am : AlertManager)
    (cpuWarn cpuCrit memWarn memCrit diskWarn diskCrit : ℚ) (now : Nat) :
    AlertManager :=
  let cpuWarn := if cpuWarn ≥ cpuCrit then cpuCrit - 10 else cpuWarn
  let memWarn := if memWarn ≥ memCrit then memCrit - 10 else memWarn
  let diskWarn := if diskWarn ≥ diskCrit then diskCrit - 10 else diskWarn
  let am :=
    { am with Thresholds :=
        { CPUWarning := cpuWarn
          CPUCritical := cpuCrit
          MemoryWarning := memWarn
          MemoryCritical := memCrit
          DiskWarning := diskWarn
          DiskCritical := diskCrit } }
  AddAlert am .Info "Alert Thresholds Updated"
    "The alert thresholds have been updated with new values."
    "System" 0 0 now

/-- AcknowledgeAllAlerts marks all alerts as acknowledged and then adds an
informational alert (src/internal/collectors/alerts.go lines 154-168). -/
def AcknowledgeAllAlerts (am : AlertManager) (now : Nat) : AlertManager :=
  let am := { am with Alerts := am.Alerts.map (fun a => { a with Acknowledged := true }) }
  AddAlert am .Info "Alerts Acknowledged"
    "All alerts have been acknowledged."
    "System" 0 0 now

/-- mapLookup models a Go map read (association-list representation). -/
def mapLookup {β : Type} (k : String) (m : List (String × β)) : Option β :=
  List.lookup k m

/-- mapInsert models a Go map write: replace the binding when the key is
present, otherwise add it. -/
def mapInsert {β : Type} (k : String) (v : β) (m : List (String × β)) :
    List (String × β) :=
  if m.any (fun p => p.1 = k) then
    m.map (fun p => if p.1 = k then (k, v) else p)
  else m ++ [(k, v)]

/-- NetworkUsageInfo mirrors models.NetworkUsageInfo
(src/internal/models/types.go lines 127-137); counters are uint64 (here Nat
together with explicit mod-2^64 wrapping where Go subtracts), rates are
float64 (here ℚ) and the timestamp is an abstract token. -/
structure NetworkUsageInfo where
  Interface : String
  BytesReceived : Nat
  BytesSent : Nat
  RxRate : ℚ
  TxRate : ℚ
  PacketsReceived : Nat
  PacketsSent : Nat
  Errors : Nat
  Timestamp : Nat
deriving DecidableEq, Repr

/-- uint64Sub models Go subtraction of two uint64 values, which wraps
modulo 2^64 when the subtrahend is larger. Inputs are assumed < 2^64. -/
def uint64Sub (a b : Nat) : Nat :=
  (a + (2 ^ 64 - b % 2 ^ 64)) % 2 ^ 64

/-- historyLength is the traffic-history capacity
(src/unnamed/part_004 line 17). -/
def historyLength : Nat := 60

/-- updateTrafficHistory adds new traffic readings to the per-interface
history (src/unnamed/part_004 lines 273-294): append the new entry, and when
the length exceeds `historyLength` drop the oldest (front) entry. Fields not
assigned by the Go code carry Go zero values. -/
def updateTrafficHistory (hist : List (String × List NetworkUsageInfo))
    (ifaceName : String) (rxMbps txMbps : ℚ) (now : Nat) :
    List (String × List NetworkUsageInfo) :=
  let hist :=
    if (mapLookup ifaceName hist).isNone then mapInsert ifaceName [] hist
    else hist
  let historyEntry : NetworkUsageInfo :=
    { Interface := ifaceName, BytesReceived := 0, BytesSent := 0,
      RxRate := rxMbps, TxRate := txMbps, PacketsReceived := 0,
      PacketsSent := 0, Errors := 0, Timestamp := now }
  let history := (mapLookup ifaceName hist).getD []
  let history := history ++ [historyEntry]
  let history := if history.length > historyLength then history.drop 1 else history
  mapInsert ifaceName history hist

/-- calcRates is the per-interface body of the loop in GetNetworkUsage
(src/unnamed/part_004 lines 175-190): bytes per second from the uint64
counter delta divided by the elapsed seconds, converted to megabits per
second. -/
def calcRates (prev current : NetworkUsageInfo) (elapsed : ℚ) :
    NetworkUsageInfo :=
  let rxBytesPerSec : ℚ := (uint64Sub current.BytesReceived prev.BytesReceived : ℚ) / elapsed
  let txBytesPerSec : ℚ := (uint64Sub current.BytesSent prev.BytesSent : ℚ) / elapsed
  let rxMbps : ℚ := rxBytesPerSec * 8 / 1000000
  let txMbps : ℚ := txBytesPerSec * 8 / 1000000
  { current with RxRate := rxMbps, TxRate := txMbps }

/-- NetState is the package-global mutable state of the network collector
(src/unnamed/part_004 lines 20-25), passed explicitly. -/
structure NetState where
  lastReadings : List (String × NetworkUsageInfo)
  lastReadTime : ℚ
  trafficHistory : List (String × List NetworkUsageInfo)
deriving Repr

/-- ratTenth is the elapsed-time floor literal 0.1 of GetNetworkUsage. -/
def ratTenth : ℚ := 1 / 10

/-- GetNetworkUsage returns current network usage information
(src/unnamed/part_004 lines 153-200). The snapshot read from /proc/net/dev
is the external collaborator; it is supplied as `networkStats` in the map's
iteration order. `now` is the wall-clock reading in seconds and `tNow` the
abstract `time.Now()` token stored in history entries. -/
def GetNetworkUsage (st : NetState)
    (networkStats : List (String × NetworkUsageInfo)) (now : ℚ) (tNow : Nat) :
    List NetworkUsageInfo × NetState :=
  let elapsed0 : ℚ := now - st.lastReadTime
  let elapsed : ℚ := if elapsed0 < ratTenth then ratTenth else elapsed0
  let step := fun (acc : List NetworkUsageInfo × List (String × List NetworkUsageInfo))
      (p : String × NetworkUsageInfo) =>
    match mapLookup p.1 st.lastReadings with
    | some prev =>
        let current := calcRates prev p.2 elapsed
        (acc.1 ++ [current],
         updateTrafficHistory acc.2 p.1 current.RxRate current.TxRate tNow)
    | none => (acc.1 ++ [p.2], acc.2)
  let out := networkStats.foldl step ([], st.trafficHistory)
  (out.1,
   { lastReadings := networkStats, lastReadTime := now, trafficHistory := out.2 })

/-- TemperatureInfo mirrors models.TemperatureInfo
(src/internal/models/types.go lines 113-118). -/
structure TemperatureInfo where
  CPU : ℚ
  GPU : ℚ
  Components : List (String × ℚ)
  Units : String
deriving DecidableEq, Repr

/-- TemperatureHistoryRecord mirrors models.TemperatureHistoryRecord
(src/internal/models/types.go lines 120-125). -/
structure TemperatureHistoryRecord where
  Timestamp : Nat
  CPU : ℚ
  GPU : ℚ
  Components : List (String × ℚ)
deriving DecidableEq, Repr

/-- StoreTemperatureHistory stores temperature data for historical tracking
(src/internal/collectors/temperature.go lines 290-304): append the record
and keep only the last 1440 entries. -/
def StoreTemperatureHistory (temperatureHistory : List TemperatureHistoryRecord)
    (info : TemperatureInfo) (now : Nat) : List TemperatureHistoryRecord :=
  let record : TemperatureHistoryRecord :=
    { Timestamp := now, CPU := info.CPU, GPU := info.GPU,
      Components := info.Components }
  let temperatureHistory := temperatureHistory ++ [record]
  if temperatureHistory.length > 1440 then
    temperatureHistory.drop (temperatureHistory.length - 1440)
  else temperatureHistory

/-- priorityOrder is the fixed priority list of GetSortedSectionNames
(src/internal/ui/components.go lines 206-218). -/
def priorityOrder : List String :=
  ["System", "CPU", "Memory", "Disk", "Network", "Runtime Environment",
   "Runtime", "Top Processes", "Processes", "Docker", "Containers"]

/-- GetSortedSectionNames returns section names in display order
(src/internal/ui/components.go lines 204-247): priority sections present in
the map first, then every remaining section in the order in which Go's
(randomised) map iteration enumerates it. The iteration order is therefore
an explicit input: `sectionNames` lists the map's keys in iteration order. -/
def GetSortedSectionNames (sectionNames : List String) : List String :=
  let result := priorityOrder.filter (fun n => sectionNames.contains n)
  sectionNames.foldl
    (fun acc n => if acc.contains n then acc else acc ++ [n]) result

/-- sectionOrderL is the numeric priority map of getSortedSectionNames
(src/unnamed/part_003 lines 222-238); its keys are distinct and its values
are distinct. -/
def sectionOrderL : List (String × Nat) :=
  [("System", 1), ("Runtime Environment", 2), ("CPU", 3), ("Memory", 4),
   ("Disk", 5), ("Network", 6), ("Network Traffic", 7), ("Top Processes", 8),
   ("Processes", 9), ("Docker", 10), ("Containers", 11), ("Battery", 12),
   ("Temperature", 13), ("System Logs", 14), ("Resource History", 15)]

/-- sectionOrd looks a section name up in the priority map
(the `sectionOrder[name]` reads in src/unnamed/part_003 lines 246-247). -/
def sectionOrd (s : String) : Option Nat := List.lookup s sectionOrderL

/-- charsLtb is byte-wise lexicographic comparison of strings as Go's `<`
performs it, expressed on the codepoint sequences (UTF-8 byte order and
codepoint order agree). -/
def charsLtb : List Char → List Char → Bool
  | [], [] => false
  | [], _ :: _ => true
  | _ :: _, [] => false
  | a :: as, b :: bs =>
    if a.toNat < b.toNat then true
    else if b.toNat < a.toNat then false
    else charsLtb as bs

/-- goStrLt models Go's `a < b` on strings. -/
def goStrLt (a b : String) : Prop := charsLtb a.data b.data = true

instance (a b : String) : Decidable (goStrLt a b) :=
  inferInstanceAs (Decidable (charsLtb a.data b.data = true))

/-- goStrLe is the non-strict order induced by goStrLt. -/
def goStrLe (a b : String) : Prop := ¬ goStrLt b a

instance (a b : String) : Decidable (goStrLe a b) :=
  inferInstanceAs (Decidable (¬ goStrLt b a))

/-- sectionLt is the comparison closure passed to sort.Slice
(src/unnamed/part_003 lines 245-257): both names prioritised compare by
priority, a prioritised name precedes an unprioritised one, and two
unprioritised names compare lexicographically. -/
def sectionLt (a b : String) : Prop :=
  match sectionOrd a, sectionOrd b with
  | some i, some j => i < j
  | some _, none => True
  | none, some _ => False
  | none, none => goStrLt a b

instance (a b : String) : Decidable (sectionLt a b) := by
  unfold sectionLt
  cases sectionOrd a <;> cases sectionOrd b <;> dsimp <;> infer_instance

/-- sectionLe is the non-strict order induced by sectionLt; a list is an
output of sort.Slice with comparator sectionLt exactly when consecutive
elements satisfy sectionLe. -/
def sectionLe (a b : String) : Prop := ¬ sectionLt b a

instance (a b : String) : Decidable (sectionLe a b) :=
  inferInstanceAs (Decidable (¬ sectionLt b a))

/-- getSortedSectionNames sorts the map's keys with sort.Slice under the
comparator sectionLt (src/unnamed/part_003 lines 240-260). sectionLt is a
strict total order on distinct strings (the priority map is injective), so
any comparison sort produces the unique sectionLe-sorted permutation; the
embedding uses insertion sort. `sectionNames` lists the map's keys. -/
def getSortedSectionNames (sectionNames : List String) : List String :=
  List.insertionSort sectionLe sectionNames

/-- specSectionOrder is the ordering the specification prescribes, written
from the spec's words for comparison with getSortedSectionNames: priority
sections present first in the priority list's order, then all remaining
sections sorted lexicographically. -/
def specSectionOrder (sectionNames : List String) : List String :=
  (sectionOrderL.map Prod.fst).filter (fun n => sectionNames.contains n) ++
    List.insertionSort goStrLe
      (sectionNames.filter (fun n => (sectionOrd n).isNone))

/-- LogEntry mirrors models.LogEntry (src/internal/models/types.go lines
168-173); the timestamp is an abstract token, 0 standing for Go's zero
time.Time. -/
structure LogEntry where
  Timestamp : Nat
  Content : String
  Level : String
  Source : String
deriving DecidableEq, Repr

/-- strContainsB is the Bool form of strContains (Go strings.Contains). -/
def strContainsB (s sub : String) : Bool := decide (strContains s sub)

/-- detectLogLevel infers a severity from keywords
(src/unnamed/part_007 lines 291-298 with the patterns of lines 41-49). The
case-insensitive regexes are literal alternations, embedded as lowercase
substring tests. Go iterates the pattern map in randomised order; a line
matching two patterns may get either level. The embedding fixes the order
error, warning, info, debug; no claim depends on multi-match lines. -/
def detectLogLevel (content : String) : String :=
  let lower := content.toLower
  if strContainsB lower "error" || strContainsB lower "fail" ||
      strContainsB lower "exception" then "error"
  else if strContainsB lower "warning" || strContainsB lower "warn" then "warning"
  else if strContainsB lower "info" || strContainsB lower "notice" then "info"
  else if strContainsB lower "debug" then "debug"
  else "info"

/-- TimestampRecognizer abstracts the in-line timestamp extraction of the
parsers (the regex match plus time.Parse of src/unnamed/part_007 lines
252-257 and 273-287). A recognizer returns 0 (the zero time) when no
timestamp is recognised. The claims settled here do not depend on it, so
the theorems quantify over every recognizer. -/
structure TimestampRecognizer where
  syslogTs : String → Nat
  genericTs : String → Nat

/-- parseSyslogLine parses one syslog-style line
(src/unnamed/part_007 lines 246-261). -/
def parseSyslogLine (tr : TimestampRecognizer) (line : String) : LogEntry :=
  { Content := line, Level := detectLogLevel line,
    Timestamp := tr.syslogTs line, Source := "" }

/-- parseAuthLogLine delegates to parseSyslogLine
(src/unnamed/part_007 lines 263-265). -/
def parseAuthLogLine (tr : TimestampRecognizer) (line : String) : LogEntry :=
  parseSyslogLine tr line

/-- parseGenericLogLine parses one generic (ISO-8601-prefixed) line
(src/unnamed/part_007 lines 267-289). -/
def parseGenericLogLine (tr : TimestampRecognizer) (line : String) : LogEntry :=
  { Content := line, Level := detectLogLevel line,
    Timestamp := tr.genericTs line, Source := "" }

/-- parseLogFile parses the scanned lines of a log file
(src/unnamed/part_007 lines 208-243): pick a parser by filename pattern, set
the source path, fall back to the file modification time when no in-line
timestamp was recognised, and reverse so the newest entries come first. -/
def parseLogFile (tr : TimestampRecognizer) (lines : List String)
    (filePath : String) (modTime : Nat) : List LogEntry :=
  let parseFunc :=
    if strContainsB filePath "syslog" then parseSyslogLine tr
    else if strContainsB filePath "auth.log" then parseAuthLogLine tr
    else parseGenericLogLine tr
  let entries := lines.map (fun line =>
    let entry := parseFunc line
    let entry := { entry with Source := filePath }
    if entry.Timestamp = 0 then { entry with Timestamp := modTime } else entry)
  entries.reverse

/-- filterLogEntries keeps up to `limit` entries, skipping debug entries
unless requested (src/unnamed/part_007 lines 300-316); the Go loop breaks
as soon as the accumulator reaches the limit. -/
def filterLogEntries (entries : List LogEntry) (limit : ℤ)
    (includeDebug : Bool) : List LogEntry :=
  go entries []
where
  go : List LogEntry → List LogEntry → List LogEntry
  | [], filtered => filtered
  | e :: rest, filtered =>
    if !includeDebug && e.Level = "debug" then go rest filtered
    else
      let filtered := filtered ++ [e]
      if (filtered.length : ℤ) ≥ limit then filtered
      else go rest filtered

/-- FileInfo is the part of os.FileInfo the watcher consults. -/
structure FileInfo where
  size : ℤ
  modTime : Nat
deriving DecidableEq, Repr

/-- FileSys abstracts the filesystem collaborator: `stat` models os.Stat /
File.Stat (none = error) and `readLines` models opening the file and
scanning its (up to ~50KB tail of) lines (none = open error; the byte-level
50KB seek windowing is inside this collaborator read). -/
structure FileSys where
  stat : String → Option FileInfo
  readLines : String → Option (List String)

/-- LogWatcher mirrors the watcher record of src/unnamed/part_007 lines
61-68 (the stop channel is process machinery, not modelled). -/
structure LogWatcher where
  filePath : String
  lastSize : ℤ
  lastModTime : Nat
  entries : List LogEntry
  watching : Bool
deriving DecidableEq, Repr

/-- LogState is the package-global log cache and watcher registry
(src/unnamed/part_007 lines 54-58), passed explicitly. -/
structure LogState where
  logCache : List (String × List LogEntry)
  logWatchers : List (String × LogWatcher)

/-- startLogWatcher registers a watcher for a path unless one is already
active (src/unnamed/part_007 lines 318-346); spawning the ticker goroutine
is process machinery, not modelled. -/
def startLogWatcher (st : LogState) (filePath : String) (fileSize : ℤ)
    (modTime : Nat) : LogState :=
  let alreadyActive :=
    match mapLookup filePath st.logWatchers with
    | some w => w.watching
    | none => false
  if alreadyActive then st
  else
    let watcher : LogWatcher :=
      { filePath := filePath, lastSize := fileSize, lastModTime := modTime,
        entries := [], watching := true }
    { st with logWatchers := mapInsert filePath watcher st.logWatchers }

/-- getLogEntriesRead is the cache-miss path of getLogEntries
(src/unnamed/part_007 lines 176-205). -/
def getLogEntriesRead (tr : TimestampRecognizer) (fs : FileSys)
    (st : LogState) (filePath : String) (numLines : ℤ) (includeDebug : Bool) :
    List LogEntry × LogState :=
  match fs.readLines filePath with
  | none => ([], st)
  | some lines =>
    match fs.stat filePath with
    | none => ([], st)
    | some fi =>
      let entries := parseLogFile tr lines filePath fi.modTime
      let st := { st with logCache := mapInsert filePath entries st.logCache }
      let st := startLogWatcher st filePath fi.size fi.modTime
      (filterLogEntries entries numLines includeDebug, st)

/-- getLogEntries reads and parses log entries from a file
(src/unnamed/part_007 lines 167-205): serve the cache when it holds a
non-empty entry list for the path; otherwise read, parse, fill the cache and
start a watcher; any stat/open error yields an empty result and leaves the
state untouched. -/
def getLogEntries (tr : TimestampRecognizer) (fs : FileSys) (st : LogState)
    (filePath : String) (numLines : ℤ) (includeDebug : Bool) :
    List LogEntry × LogState :=
  match mapLookup filePath st.logCache with
  | some cachedEntries =>
    if cachedEntries.length > 0 then
      (filterLogEntries cachedEntries numLines includeDebug, st)
    else getLogEntriesRead tr fs st filePath numLines includeDebug
  | none => getLogEntriesRead tr fs st filePath numLines includeDebug

/-- checkLogFileChanges is one poll tick of the background watcher
(src/unnamed/part_007 lines 348-370): stat the file; on change re-read and
re-parse, replacing the cache entry and updating the watcher bookkeeping;
on a stat or open error return with everything unchanged. -/
def checkLogFileChanges (tr : TimestampRecognizer) (fs : FileSys)
    (logCache : List (String × List LogEntry)) (w : LogWatcher) :
    List (String × List LogEntry) × LogWatcher :=
  match fs.stat w.filePath with
  | none => (logCache, w)
  | some fi =>
    if fi.size ≠ w.lastSize ∨ fi.modTime ≠ w.lastModTime then
      match fs.readLines w.filePath with
      | none => (logCache, w)
      | some lines =>
        let entries := parseLogFile tr lines w.filePath fi.modTime
        (mapInsert w.filePath entries logCache,
         { w with lastSize := fi.size, lastModTime := fi.modTime })
    else (logCache, w)

/-- AddCall packages the arguments of one AddAlert invocation, to reason
about sequences of calls. -/
structure AddCall where
  level : AlertLevel
  title : String
  message : String
  resource : String
  value : ℚ
  threshold : ℚ
  now : Nat
deriving DecidableEq, Repr

/-- applyAdd performs one AddAlert call described by an AddCall. -/
def applyAdd (am : AlertManager) (c : AddCall) : AlertManager :=
  AddAlert am c.level c.title c.message c.resource c.value c.threshold c.now

/-- mkAlertOf is the alert record that AddAlert constructs from a call
(src/internal/alerts/alerts.go lines 80-89). -/
def mkAlertOf (c : AddCall) : Alert :=
  { Level := c.level, Title := c.title, Message := c.message,
    Resource := c.resource, Value := c.value, Threshold := c.threshold,
    Time := c.now, Acknowledged := false }

/-- ops105 is a concrete sequence of 105 AddAlert calls, distinguished by
their timestamps 0..104. -/
def ops105 : List AddCall :=
  (List.range 105).map (fun i =>
    { level := .Info, title := "T", message := "M", resource := "R",
      value := 0, threshold := 0, now := i })

/-- trZero is a concrete timestamp recognizer that recognises nothing. -/
def trZero : TimestampRecognizer :=
  { syslogTs := fun _ => 0, genericTs := fun _ => 0 }

/-- mkNetSnapshot builds a snapshot with the given received-byte counter and
Go zero values elsewhere, for concrete rate examples. -/
def mkNetSnapshot (name : String) (rx : Nat) : NetworkUsageInfo :=
  { Interface := name, BytesReceived := rx, BytesSent := 0, RxRate := 0,
    TxRate := 0, PacketsReceived := 0, PacketsSent := 0, Errors := 0,
    Timestamp := 0 }

/-- ackInfoAlert is the informational alert that AcknowledgeAllAlerts adds
(src/internal/collectors/alerts.go lines 160-167). -/
def ackInfoAlert (t : Nat) : Alert :=
  { Level := .Info, Title := "Alerts Acknowledged",
    Message := "All alerts have been acknowledged.", Resource := "System",
    Value := 0, Threshold := 0, Time := t, Acknowledged := false }

/-- thresholdsUpdatedAlert is the informational alert that
ConfigureAlertThresholds adds (src/internal/collectors/alerts.go lines
143-150). -/
def thresholdsUpdatedAlert (t : Nat) : Alert :=
  { Level := .Info, Title := "Alert Thresholds Updated",
    Message := "The alert thresholds have been updated with new values.",
    Resource := "System", Value := 0, Threshold := 0, Time := t,
    Acknowledged := false }

/-! Shared lemmas about AddAlert and substring containment. -/

theorem AddAlert_not_enabled (am : AlertManager) (l : AlertLevel)
    (ti me re : String) (v th : ℚ) (n : Nat) (h : am.EnableAlerts = false) :
    AddAlert am l ti me re v th n = am := by
  simp [AddAlert, h]

theorem AddAlert_enabled (am : AlertManager) (l : AlertLevel)
    (ti me re : String) (v th : ℚ) (n : Nat) (h : am.EnableAlerts = true) :
    AddAlert am l ti me re v th n =
      { am with Alerts :=
          ({ Level := l, Title := ti, Message := me, Resource := re,
             Value := v, Threshold := th, Time := n, Acknowledged := false }
            :: am.Alerts).take am.MaxAlerts } := by
  simp [AddAlert, h]

theorem strContains_of_eq (s t sub : String) (h : s = t)
    (hc : strContains t sub) : strContains s sub := h ▸ hc

theorem strContains_middle (a x b : String) :
    strContains (a ++ (x ++ b)) x := by
  simp only [strContains, String.data_append]
  exact List.infix_append' a.data x.data b.data

theorem strContains_right (a b x : String) (h : strContains b x) :
    strContains (a ++ b) x := by
  simp only [strContains, String.data_append] at h ⊢
  exact h.trans (List.suffix_append a.data b.data).isInfix

/-- Claim C10: for every AlertManager whose EnableAlerts field is false,
every AddAlert call, including the ones made by CheckCPU, CheckMemory and
CheckDisk, leaves the manager (and so the alert store) completely
unchanged. -/
theorem claimC10_disabled_alerts_frame (am : AlertManager) (l : AlertLevel)
    (ti me re pa : String) (v th usage : ℚ) (n : Nat)
    (h : am.EnableAlerts = false) :
    AddAlert am l ti me re v th n = am ∧
    CheckCPU am usage n = am ∧
    CheckMemory am usage n = am ∧
    CheckDisk am usage pa n = am := by
  refine ⟨AddAlert_not_enabled am l ti me re v th n h, ?_, ?_, ?_⟩
  · simp [CheckCPU, AddAlert, h]
  · simp [CheckMemory, AddAlert, h]
  · simp [CheckDisk, AddAlert, h]

/-- Witness for claim C10 at a concrete disabled manager. -/
theorem claimC10_witness :
    ({ NewAlertManager with EnableAlerts := false } : AlertManager).EnableAlerts = false ∧
    (AddAlert { NewAlertManager with EnableAlerts := false } .Info "a" "b" "c" 0 0 7
        = { NewAlertManager with EnableAlerts := false } ∧
      CheckCPU { NewAlertManager with EnableAlerts := false } 99 7
        = { NewAlertManager with EnableAlerts := false } ∧
      CheckMemory { NewAlertManager with EnableAlerts := false } 99 7
        = { NewAlertManager with EnableAlerts := false } ∧
      CheckDisk { NewAlertManager with EnableAlerts := false } 99 "/" 7
        = { NewAlertManager with EnableAlerts := false }) :=
  ⟨rfl, claimC10_disabled_alerts_frame _ .Info "a" "b" "c" "/" 0 0 99 7 rfl⟩

/-- Claim C1: with the default thresholds (CPUWarning 75, CPUCritical 90)
and alerts enabled, CheckCPU emits exactly one Critical alert when the
value is at least 90, else exactly one Warning alert when the value is at
least 75, whose message contains the value and the warning threshold
formatted to one decimal, and otherwise adds nothing; fmtF1 renders the
thresholds as "90.0" and "75.0". -/
theorem claimC1_checkCPU_threshold_rule
    (am : AlertManager) (usage : ℚ) (t : Nat)
    (hth : am.Thresholds = DefaultThresholds)
    (hen : am.EnableAlerts = true) (hmax : 1 ≤ am.MaxAlerts) :
    (90 ≤ usage →
      (CheckCPU am usage t).Alerts =
        { Level := AlertLevel.Critical, Title := "Critical CPU Usage",
          Message := "CPU usage is at " ++ fmtF1 usage ++
            "%, exceeding the critical threshold of " ++ fmtF1 90 ++ "%",
          Resource := "CPU", Value := usage, Threshold := 90, Time := t,
          Acknowledged := false } :: am.Alerts.take (am.MaxAlerts - 1))
    ∧ (75 ≤ usage → usage < 90 →
      (CheckCPU am usage t).Alerts =
        { Level := AlertLevel.Warning, Title := "High CPU Usage",
          Message := "CPU usage is at " ++ fmtF1 usage ++
            "%, exceeding the warning threshold of " ++ fmtF1 75 ++ "%",
          Resource := "CPU", Value := usage, Threshold := 75, Time := t,
          Acknowledged := false } :: am.Alerts.take (am.MaxAlerts - 1)
      ∧ strContains ("CPU usage is at " ++ fmtF1 usage ++
          "%, exceeding the warning threshold of " ++ fmtF1 75 ++ "%")
          (fmtF1 usage)
      ∧ strContains ("CPU usage is at " ++ fmtF1 usage ++
          "%, exceeding the warning threshold of " ++ fmtF1 75 ++ "%")
          "75.0")
    ∧ (usage < 75 → CheckCPU am usage t = am)
    ∧ fmtF1 90 = "90.0" ∧ fmtF1 75 = "75.0" := by
  obtain ⟨k, hk⟩ : ∃ k, am.MaxAlerts = k + 1 := ⟨am.MaxAlerts - 1, by omega⟩
  have h75s : fmtF1 75 = "75.0" := by decide
  refine ⟨?_, ?_, ?_, by decide, h75s⟩
  · intro h
    have hge : usage ≥ am.Thresholds.CPUCritical := by
      rw [hth]; exact h
    rw [CheckCPU, if_pos hge,
      AddAlert_enabled _ _ _ _ _ _ _ _ hen, hk]
    simp [hth, DefaultThresholds]
  · intro h75 h90
    have hlt : ¬ usage ≥ am.Thresholds.CPUCritical := by
      rw [hth]; exact not_le.mpr h90
    have hge : usage ≥ am.Thresholds.CPUWarning := by
      rw [hth]; exact h75
    refine ⟨?_, ?_, ?_⟩
    · rw [CheckCPU, if_neg hlt, if_pos hge,
        AddAlert_enabled _ _ _ _ _ _ _ _ hen, hk]
      simp [hth, DefaultThresholds]
    · apply strContains_of_eq _
        ("CPU usage is at " ++ (fmtF1 usage ++
          ("%, exceeding the warning threshold of " ++ (fmtF1 75 ++ "%"))))
      · simp [String.append_assoc]
      · exact strContains_middle _ _ _
    · apply strContains_of_eq _
        ("CPU usage is at " ++ (fmtF1 usage ++
          ("%, exceeding the warning threshold of " ++ (fmtF1 75 ++ "%"))))
      · simp [String.append_assoc]
      · refine strContains_right _ _ _ (strContains_right _ _ _ ?_)
        rw [h75s]
        decide
  · intro h
    have h1 : ¬ usage ≥ am.Thresholds.CPUCritical := by
      rw [hth]
      have hc : DefaultThresholds.CPUCritical = 90 := rfl
      rw [hc]
      exact not_le.mpr (by linarith)
    have h2 : ¬ usage ≥ am.Thresholds.CPUWarning := by
      rw [hth]; exact not_le.mpr h
    rw [CheckCPU, if_neg h1, if_neg h2]

/-- Witness for claim C1 at the default manager and usage 80.0. -/
theorem claimC1_witness :
    NewAlertManager.Thresholds = DefaultThresholds ∧
    NewAlertManager.EnableAlerts = true ∧
    1 ≤ NewAlertManager.MaxAlerts ∧
    (75 ≤ (80 : ℚ) ∧ (80 : ℚ) < 90) ∧
    ((CheckCPU NewAlertManager 80 3).Alerts =
        { Level := AlertLevel.Warning, Title := "High CPU Usage",
          Message := "CPU usage is at " ++ fmtF1 80 ++
            "%, exceeding the warning threshold of " ++ fmtF1 75 ++ "%",
          Resource := "CPU", Value := 80, Threshold := 75, Time := 3,
          Acknowledged := false } :: NewAlertManager.Alerts.take (NewAlertManager.MaxAlerts - 1)
      ∧ strContains ("CPU usage is at " ++ fmtF1 80 ++
          "%, exceeding the warning threshold of " ++ fmtF1 75 ++ "%")
          (fmtF1 80)
      ∧ strContains ("CPU usage is at " ++ fmtF1 80 ++
          "%, exceeding the warning threshold of " ++ fmtF1 75 ++ "%")
          "75.0") :=
  ⟨rfl, rfl, by decide, ⟨by decide, by decide⟩,
    (claimC1_checkCPU_threshold_rule NewAlertManager 80 3 rfl rfl
      (by decide)).2.1 (by decide) (by decide)⟩

theorem take_append_take {α : Type} (M : Nat) (X Y : List α) :
    (X ++ Y.take M).take M = (X ++ Y).take M := by
  rw [List.take_append_eq_append_take, List.take_append_eq_append_take,
    List.take_take, Nat.min_eq_left (Nat.sub_le _ _)]

theorem foldl_applyAdd (ops : List AddCall) (am : AlertManager)
    (hen : am.EnableAlerts = true) (hlen : am.Alerts.length ≤ am.MaxAlerts) :
    ops.foldl applyAdd am =
      { am with Alerts :=
          ((ops.map mkAlertOf).reverse ++ am.Alerts).take am.MaxAlerts } := by
  induction ops generalizing am with
  | nil =>
    simp only [List.foldl_nil, List.map_nil, List.reverse_nil, List.nil_append]
    rw [List.take_of_length_le hlen]
  | cons c rest ih =>
    simp only [List.foldl_cons]
    have hstep : applyAdd am c =
        { am with Alerts := (mkAlertOf c :: am.Alerts).take am.MaxAlerts } :=
      AddAlert_enabled am c.level c.title c.message c.resource c.value
        c.threshold c.now hen
    rw [hstep, ih { am with Alerts := (mkAlertOf c :: am.Alerts).take am.MaxAlerts }
      hen (List.length_take_le _ _)]
    simp only [List.map_cons, List.reverse_cons, List.append_assoc,
      List.singleton_append]
    rw [take_append_take]

/-- Claim C6: folding any sequence of AddAlert calls from a fresh manager
leaves the store equal to the reversed call sequence truncated to
MaxAlerts = 100 (so reverse-chronological, length never above 100), and
after the concrete sequence of 105 calls the store holds exactly the 100
most recently added alerts, newest first, the oldest 5 evicted. -/
theorem claimC6_alert_store_cap :
    (∀ ops : List AddCall,
      (ops.foldl applyAdd NewAlertManager).Alerts
          = ((ops.map mkAlertOf).reverse).take 100
      ∧ (ops.foldl applyAdd NewAlertManager).Alerts.length ≤ 100)
    ∧ (ops105.foldl applyAdd NewAlertManager).Alerts
        = ((ops105.drop 5).map mkAlertOf).reverse
    ∧ (ops105.foldl applyAdd NewAlertManager).Alerts.length = 100 := by
  have hgen : ∀ ops : List AddCall,
      (ops.foldl applyAdd NewAlertManager).Alerts
        = ((ops.map mkAlertOf).reverse).take 100 := by
    intro ops
    rw [foldl_applyAdd ops NewAlertManager rfl (by simp [NewAlertManager])]
    simp [NewAlertManager]
  have hlen105 : ops105.length = 105 := by
    simp [ops105]
  refine ⟨fun ops => ⟨hgen ops, ?_⟩, ?_, ?_⟩
  · rw [hgen]
    exact List.length_take_le _ _
  · rw [hgen ops105, List.take_reverse]
    congr 1
  · rw [hgen ops105, List.length_take, List.length_reverse,
      List.length_map, hlen105]
    decide

theorem AcknowledgeAllAlerts_eq (am : AlertManager) (t : Nat)
    (hen : am.EnableAlerts = true) :
    AcknowledgeAllAlerts am t =
      { am with Alerts :=
          List.take am.MaxAlerts (ackInfoAlert t ::
            am.Alerts.map (fun a => { a with Acknowledged := true })) } := by
  unfold AcknowledgeAllAlerts
  dsimp only
  rw [AddAlert_enabled
    { am with Alerts := am.Alerts.map (fun a => { a with Acknowledged := true }) }
    _ _ _ _ _ _ _ hen]
  rfl

theorem getActiveAlerts_ackAll (am : AlertManager) (t : Nat)
    (hen : am.EnableAlerts = true) (hmax : 1 ≤ am.MaxAlerts) :
    GetActiveAlerts (AcknowledgeAllAlerts am t) = [ackInfoAlert t] := by
  obtain ⟨k, hk⟩ : ∃ k, am.MaxAlerts = k + 1 := ⟨am.MaxAlerts - 1, by omega⟩
  rw [AcknowledgeAllAlerts_eq am t hen, GetActiveAlerts]
  simp only [hk, List.take_succ_cons, List.filter_cons]
  have hfalse : (ackInfoAlert t).Acknowledged = false := rfl
  rw [hfalse]
  simp only [Bool.not_false, if_true]
  have hnil : ((am.Alerts.map (fun a => { a with Acknowledged := true })).take k).filter
      (fun a => !a.Acknowledged) = [] := by
    rw [List.filter_eq_nil_iff]
    intro a ha
    have hmem := List.take_subset _ _ ha
    obtain ⟨b, _, rfl⟩ := List.mem_map.mp hmem
    simp
  rw [hnil]

/-- Counterexample to claim C2 as stated: starting from the fresh (empty,
enabled) manager, acknowledging all alerts does not make the active-alert
query empty, because the informational alert added by AcknowledgeAllAlerts
is itself unacknowledged. -/
theorem claimC2_counterexample :
    GetActiveAlerts (AcknowledgeAllAlerts NewAlertManager 0) ≠ [] := by
  decide

/-- Claim C2 (amended): acknowledging all alerts sets the flag of every
previously stored alert to true and adds exactly one informational alert,
which is itself unacknowledged; the subsequent active-alert query therefore
returns exactly that one acknowledgment alert rather than an empty set, and
re-running the acknowledge operation again yields exactly one active alert,
the newer acknowledgment alert. -/
theorem claimC2_acknowledge_behavior (am : AlertManager) (t u : Nat)
    (hen : am.EnableAlerts = true) (hmax : 1 ≤ am.MaxAlerts) :
    (AcknowledgeAllAlerts am t).Alerts =
      ackInfoAlert t ::
        (am.Alerts.map (fun a => { a with Acknowledged := true })).take
          (am.MaxAlerts - 1)
    ∧ (∀ a ∈ ((AcknowledgeAllAlerts am t).Alerts).tail, a.Acknowledged = true)
    ∧ GetActiveAlerts (AcknowledgeAllAlerts am t) = [ackInfoAlert t]
    ∧ GetActiveAlerts (AcknowledgeAllAlerts (AcknowledgeAllAlerts am t) u)
        = [ackInfoAlert u] := by
  obtain ⟨k, hk⟩ : ∃ k, am.MaxAlerts = k + 1 := ⟨am.MaxAlerts - 1, by omega⟩
  have h1 : (AcknowledgeAllAlerts am t).Alerts =
      ackInfoAlert t ::
        (am.Alerts.map (fun a => { a with Acknowledged := true })).take
          (am.MaxAlerts - 1) := by
    rw [AcknowledgeAllAlerts_eq am t hen, hk]
    simp [List.take_succ_cons]
  refine ⟨h1, ?_, getActiveAlerts_ackAll am t hen hmax, ?_⟩
  · intro a ha
    rw [h1] at ha
    simp only [List.tail_cons] at ha
    have hmem := List.take_subset _ _ ha
    obtain ⟨b, _, rfl⟩ := List.mem_map.mp hmem
    rfl
  · have hen2 : (AcknowledgeAllAlerts am t).EnableAlerts = true := by
      rw [AcknowledgeAllAlerts_eq am t hen]
      exact hen
    have hmax2 : 1 ≤ (AcknowledgeAllAlerts am t).MaxAlerts := by
      rw [AcknowledgeAllAlerts_eq am t hen]
      exact hmax
    exact getActiveAlerts_ackAll _ u hen2 hmax2

/-- Witness for claim C2 (amended) at the fresh manager. -/
theorem claimC2_witness :
    NewAlertManager.EnableAlerts = true ∧ 1 ≤ NewAlertManager.MaxAlerts ∧
    ((AcknowledgeAllAlerts NewAlertManager 0).Alerts =
      ackInfoAlert 0 ::
        (NewAlertManager.Alerts.map (fun a => { a with Acknowledged := true })).take
          (NewAlertManager.MaxAlerts - 1)
    ∧ (∀ a ∈ ((AcknowledgeAllAlerts NewAlertManager 0).Alerts).tail,
        a.Acknowledged = true)
    ∧ GetActiveAlerts (AcknowledgeAllAlerts NewAlertManager 0) = [ackInfoAlert 0]
    ∧ GetActiveAlerts
        (AcknowledgeAllAlerts (AcknowledgeAllAlerts NewAlertManager 0) 1)
        = [ackInfoAlert 1]) :=
  ⟨rfl, by decide, claimC2_acknowledge_behavior NewAlertManager 0 1 rfl (by decide)⟩

/-- Claim C7: ConfigureAlertThresholds replaces every supplied warning value
that is at least its critical value by critical − 10, so each resulting
pair satisfies warning < critical; it adds exactly one informational alert
when alerts are enabled; and the concrete call with CPUWarning 95,
CPUCritical 90 results in CPUWarning 80. The operation is total and
surfaces no error. -/
theorem claimC7_threshold_validation (am : AlertManager)
    (cw cc mw mc dw dc : ℚ) (t : Nat)
    (hen : am.EnableAlerts = true) (hmax : 1 ≤ am.MaxAlerts) :
    ((ConfigureAlertThresholds am cw cc mw mc dw dc t).Thresholds =
      { CPUWarning := if cw ≥ cc then cc - 10 else cw
        CPUCritical := cc
        MemoryWarning := if mw ≥ mc then mc - 10 else mw
        MemoryCritical := mc
        DiskWarning := if dw ≥ dc then dc - 10 else dw
        DiskCritical := dc }
    ∧ (ConfigureAlertThresholds am cw cc mw mc dw dc t).Thresholds.CPUWarning
        < (ConfigureAlertThresholds am cw cc mw mc dw dc t).Thresholds.CPUCritical
    ∧ (ConfigureAlertThresholds am cw cc mw mc dw dc t).Thresholds.MemoryWarning
        < (ConfigureAlertThresholds am cw cc mw mc dw dc t).Thresholds.MemoryCritical
    ∧ (ConfigureAlertThresholds am cw cc mw mc dw dc t).Thresholds.DiskWarning
        < (ConfigureAlertThresholds am cw cc mw mc dw dc t).Thresholds.DiskCritical
    ∧ (ConfigureAlertThresholds am cw cc mw mc dw dc t).Alerts =
        thresholdsUpdatedAlert t :: am.Alerts.take (am.MaxAlerts - 1))
    ∧ (ConfigureAlertThresholds NewAlertManager 95 90 80 95 85 95 0).Thresholds.CPUWarning = 80 := by
  obtain ⟨k, hk⟩ : ∃ k, am.MaxAlerts = k + 1 := ⟨am.MaxAlerts - 1, by omega⟩
  have heq : ConfigureAlertThresholds am cw cc mw mc dw dc t =
      { am with
        Thresholds :=
          { CPUWarning := if cw ≥ cc then cc - 10 else cw
            CPUCritical := cc
            MemoryWarning := if mw ≥ mc then mc - 10 else mw
            MemoryCritical := mc
            DiskWarning := if dw ≥ dc then dc - 10 else dw
            DiskCritical := dc }
        Alerts :=
          (thresholdsUpdatedAlert t :: am.Alerts).take am.MaxAlerts } := by
    unfold ConfigureAlertThresholds
    dsimp only
    rw [AddAlert_enabled
      { am with Thresholds :=
          { CPUWarning := if cw ≥ cc then cc - 10 else cw
            CPUCritical := cc
            MemoryWarning := if mw ≥ mc then mc - 10 else mw
            MemoryCritical := mc
            DiskWarning := if dw ≥ dc then dc - 10 else dw
            DiskCritical := dc } }
      _ _ _ _ _ _ _ hen]
    rfl
  have hpair : ∀ w c : ℚ, (if w ≥ c then c - 10 else w) < c := by
    intro w c
    by_cases hwc : w ≥ c
    · rw [if_pos hwc]; linarith
    · rw [if_neg hwc]; exact lt_of_not_ge hwc
  refine ⟨⟨?_, ?_, ?_, ?_, ?_⟩, ?_⟩
  · rw [heq]
  · rw [heq]; exact hpair cw cc
  · rw [heq]; exact hpair mw mc
  · rw [heq]; exact hpair dw dc
  · rw [heq, hk]; simp [List.take_succ_cons]
  · have h95 : ((95 : ℚ) ≥ 90) := by norm_num
    unfold ConfigureAlertThresholds
    rw [AddAlert_enabled _ _ _ _ _ _ _ _ rfl]
    simp only [if_pos h95]
    norm_num

/-- Witness for claim C7 at the fresh manager and the spec's example
arguments. -/
theorem claimC7_witness :
    NewAlertManager.EnableAlerts = true ∧ 1 ≤ NewAlertManager.MaxAlerts ∧
    (((ConfigureAlertThresholds NewAlertManager 95 90 80 95 85 95 3).Thresholds =
      { CPUWarning := if (95 : ℚ) ≥ 90 then 90 - 10 else 95
        CPUCritical := 90
        MemoryWarning := if (80 : ℚ) ≥ 95 then 95 - 10 else 80
        MemoryCritical := 95
        DiskWarning := if (85 : ℚ) ≥ 95 then 95 - 10 else 85
        DiskCritical := 95 }
    ∧ (ConfigureAlertThresholds NewAlertManager 95 90 80 95 85 95 3).Thresholds.CPUWarning
        < (ConfigureAlertThresholds NewAlertManager 95 90 80 95 85 95 3).Thresholds.CPUCritical
    ∧ (ConfigureAlertThresholds NewAlertManager 95 90 80 95 85 95 3).Thresholds.MemoryWarning
        < (ConfigureAlertThresholds NewAlertManager 95 90 80 95 85 95 3).Thresholds.MemoryCritical
    ∧ (ConfigureAlertThresholds NewAlertManager 95 90 80 95 85 95 3).Thresholds.DiskWarning
        < (ConfigureAlertThresholds NewAlertManager 95 90 80 95 85 95 3).Thresholds.DiskCritical
    ∧ (ConfigureAlertThresholds NewAlertManager 95 90 80 95 85 95 3).Alerts =
        thresholdsUpdatedAlert 3 :: NewAlertManager.Alerts.take
          (NewAlertManager.MaxAlerts - 1))
    ∧ (ConfigureAlertThresholds NewAlertManager 95 90 80 95 85 95 0).Thresholds.CPUWarning = 80) :=
  ⟨rfl, by decide,
    claimC7_threshold_validation NewAlertManager 95 90 80 95 85 95 3 rfl (by decide)⟩

/-! Lemmas about uint64 wrapping, map updates, and the rate calculator. -/

theorem uint64Sub_of_le (a b : Nat) (hle : b ≤ a) (ha : a < 2 ^ 64) :
    uint64Sub a b = a - b := by
  unfold uint64Sub
  omega

theorem uint64Sub_wrap (a b : Nat) (hlt : a < b) (hb : b < 2 ^ 64) :
    uint64Sub a b = 2 ^ 64 - (b - a) := by
  unfold uint64Sub
  omega

theorem lookup_map_overwrite {β : Type} (k : String) (v : β) :
    ∀ (m : List (String × β)), m.any (fun p => p.1 = k) = true →
      (m.map (fun p => if p.1 = k then (k, v) else p)).lookup k = some v
  | [], h => by simp at h
  | (qk, qv) :: rest, h => by
    by_cases hqk : qk = k
    · subst hqk
      simp
    · have hres : rest.any (fun p => p.1 = k) = true := by
        simpa [hqk] using h
      simp only [List.map_cons]
      have hif : (if ((qk, qv) : String × β).1 = k then (k, v) else (qk, qv))
          = (qk, qv) := if_neg hqk
      rw [hif, List.lookup_cons]
      have hbeq : (k == qk) = false := by
        simp [Ne.symm hqk]
      rw [hbeq]
      exact lookup_map_overwrite k v rest hres

theorem lookup_append_new {β : Type} (k : String) (v : β)
    (m : List (String × β)) (h : m.any (fun p => p.1 = k) = false) :
    (m ++ [(k, v)]).lookup k = some v := by
  rw [List.lookup_append]
  have h1 : m.lookup k = none := by
    rw [List.lookup_eq_none_iff]
    intro p hp
    have hne : p.1 ≠ k := by
      intro hc
      have hany : m.any (fun p => p.1 = k) = true :=
        List.any_eq_true.mpr ⟨p, hp, by simpa using hc⟩
      rw [hany] at h
      cases h
    simpa using Ne.symm hne
  rw [h1]
  simp

theorem mapLookup_mapInsert_self {β : Type} (k : String) (v : β)
    (m : List (String × β)) : mapLookup k (mapInsert k v m) = some v := by
  unfold mapInsert mapLookup
  by_cases h : m.any (fun p => p.1 = k) = true
  · rw [if_pos h]
    exact lookup_map_overwrite k v m h
  · rw [if_neg h]
    refine lookup_append_new k v m ?_
    simp only [Bool.not_eq_true] at h
    exact h

theorem calcRates_rx_of_le (prev cur : NetworkUsageInfo) (e : ℚ)
    (hle : prev.BytesReceived ≤ cur.BytesReceived)
    (h64 : cur.BytesReceived < 2 ^ 64) :
    (calcRates prev cur e).RxRate =
      ((cur.BytesReceived : ℚ) - (prev.BytesReceived : ℚ)) / e * 8 / 1000000 := by
  unfold calcRates
  dsimp only
  rw [uint64Sub_of_le _ _ hle h64, Nat.cast_sub hle]

theorem calcRates_tx_of_le (prev cur : NetworkUsageInfo) (e : ℚ)
    (hle : prev.BytesSent ≤ cur.BytesSent)
    (h64 : cur.BytesSent < 2 ^ 64) :
    (calcRates prev cur e).TxRate =
      ((cur.BytesSent : ℚ) - (prev.BytesSent : ℚ)) / e * 8 / 1000000 := by
  unfold calcRates
  dsimp only
  rw [uint64Sub_of_le _ _ hle h64, Nat.cast_sub hle]

theorem getNetworkUsage_single (st : NetState) (name : String)
    (cur prev : NetworkUsageInfo) (now : ℚ) (tNow : Nat)
    (hlook : mapLookup name st.lastReadings = some prev) :
    (GetNetworkUsage st [(name, cur)] now tNow).1 =
      [calcRates prev cur
        (if now - st.lastReadTime < ratTenth then ratTenth
         else now - st.lastReadTime)] := by
  unfold GetNetworkUsage
  simp [hlook]

/-- Claim C3: for successive snapshots of one interface the computed rate is
((currentBytes − previousBytes) / elapsed) × 8 / 1e6 with the elapsed
seconds replaced by 0.1 whenever below 0.1 (for monotone counters, cf. C4
for resets); previous 1000 bytes, current 1001000 bytes, elapsed 1s gives
exactly 8 Mbps; elapsed 0s uses the 0.1 floor (a positive divisor, so no
division-by-zero fault) and gives 80 Mbps. -/
theorem claimC3_rate_formula
    (prev cur : NetworkUsageInfo) (e : ℚ) (st : NetState) (name : String)
    (now : ℚ) (tNow : Nat)
    (hrx : prev.BytesReceived ≤ cur.BytesReceived)
    (hrx64 : cur.BytesReceived < 2 ^ 64)
    (htx : prev.BytesSent ≤ cur.BytesSent)
    (htx64 : cur.BytesSent < 2 ^ 64)
    (hlook : mapLookup name st.lastReadings = some prev) :
    ((calcRates prev cur e).RxRate
        = ((cur.BytesReceived : ℚ) - (prev.BytesReceived : ℚ)) / e * 8 / 1000000)
    ∧ ((calcRates prev cur e).TxRate
        = ((cur.BytesSent : ℚ) - (prev.BytesSent : ℚ)) / e * 8 / 1000000)
    ∧ ((GetNetworkUsage st [(name, cur)] now tNow).1
        = [calcRates prev cur
            (if now - st.lastReadTime < ratTenth then ratTenth
             else now - st.lastReadTime)])
    ∧ ((GetNetworkUsage
          { lastReadings := [("eth0", mkNetSnapshot "eth0" 1000)],
            lastReadTime := 0, trafficHistory := [] }
          [("eth0", mkNetSnapshot "eth0" 1001000)] 1 0).1.map
          (fun i => i.RxRate) = [8])
    ∧ ((GetNetworkUsage
          { lastReadings := [("eth0", mkNetSnapshot "eth0" 1000)],
            lastReadTime := 0, trafficHistory := [] }
          [("eth0", mkNetSnapshot "eth0" 1001000)] 0 0).1.map
          (fun i => i.RxRate) = [80])
    ∧ ((if (0 : ℚ) - 0 < ratTenth then ratTenth else (0 : ℚ) - 0) = ratTenth
        ∧ (0 : ℚ) < ratTenth) := by
  refine ⟨calcRates_rx_of_le prev cur e hrx hrx64,
    calcRates_tx_of_le prev cur e htx htx64,
    getNetworkUsage_single st name cur prev now tNow hlook, ?_, ?_, ?_, ?_⟩
  · rw [getNetworkUsage_single
      { lastReadings := [("eth0", mkNetSnapshot "eth0" 1000)],
        lastReadTime := 0, trafficHistory := [] }
      "eth0" (mkNetSnapshot "eth0" 1001000) (mkNetSnapshot "eth0" 1000) 1 0
      (by decide)]
    simp only [List.map_cons, List.map_nil]
    rw [calcRates_rx_of_le _ _ _ (by norm_num [mkNetSnapshot]) (by norm_num [mkNetSnapshot])]
    simp only [mkNetSnapshot]
    norm_num [ratTenth]
  · rw [getNetworkUsage_single
      { lastReadings := [("eth0", mkNetSnapshot "eth0" 1000)],
        lastReadTime := 0, trafficHistory := [] }
      "eth0" (mkNetSnapshot "eth0" 1001000) (mkNetSnapshot "eth0" 1000) 0 0
      (by decide)]
    simp only [List.map_cons, List.map_nil]
    rw [calcRates_rx_of_le _ _ _ (by norm_num [mkNetSnapshot]) (by norm_num [mkNetSnapshot])]
    simp only [mkNetSnapshot]
    norm_num [ratTenth]
  · norm_num [ratTenth]
  · norm_num [ratTenth]

/-- Witness for claim C3 at the spec's concrete snapshots. -/
theorem claimC3_witness :
    ((mkNetSnapshot "eth0" 1000).BytesReceived
        ≤ (mkNetSnapshot "eth0" 1001000).BytesReceived
      ∧ (mkNetSnapshot "eth0" 1001000).BytesReceived < 2 ^ 64
      ∧ mapLookup "eth0" [("eth0", mkNetSnapshot "eth0" 1000)]
          = some (mkNetSnapshot "eth0" 1000))
    ∧ ((GetNetworkUsage
          { lastReadings := [("eth0", mkNetSnapshot "eth0" 1000)],
            lastReadTime := 0, trafficHistory := [] }
          [("eth0", mkNetSnapshot "eth0" 1001000)] 1 0).1.map
          (fun i => i.RxRate) = [8]) :=
  ⟨⟨by decide, by decide, by decide⟩,
    (claimC3_rate_formula (mkNetSnapshot "eth0" 1000)
      (mkNetSnapshot "eth0" 1001000) 1
      { lastReadings := [("eth0", mkNetSnapshot "eth0" 1000)],
        lastReadTime := 0, trafficHistory := [] }
      "eth0" 1 0 (by decide) (by decide) (by decide) (by decide)
      (by decide)).2.2.2.1⟩

/-- Counterexample to claim C4 as stated: with previous 1000 bytes and
current 500 bytes (counter reset) and elapsed 1s, the cycle's rate is not 0
— Go's uint64 subtraction wraps modulo 2^64, yielding a huge positive
rate. -/
theorem claimC4_counterexample :
    ((GetNetworkUsage
        { lastReadings := [("eth0", mkNetSnapshot "eth0" 1000)],
          lastReadTime := 0, trafficHistory := [] }
        [("eth0", mkNetSnapshot "eth0" 500)] 1 0).1.map
        (fun i => i.RxRate)) ≠ [0] := by
  rw [getNetworkUsage_single
    { lastReadings := [("eth0", mkNetSnapshot "eth0" 1000)],
      lastReadTime := 0, trafficHistory := [] }
    "eth0" (mkNetSnapshot "eth0" 500) (mkNetSnapshot "eth0" 1000) 1 0
    (by decide)]
  simp only [List.map_cons, List.map_nil]
  unfold calcRates
  dsimp only
  rw [uint64Sub_wrap _ _ (by norm_num [mkNetSnapshot]) (by norm_num [mkNetSnapshot])]
  simp only [mkNetSnapshot]
  norm_num [ratTenth]

/-- Claim C4 (amended): when currentBytes < previousBytes the uint64
subtraction wraps modulo 2^64, so the rate for that cycle is the large
positive value ((2^64 − (previous − current)) / elapsed) × 8 / 1e6 — not 0;
a negative rate is indeed never produced (the wrapped delta is positive and
the clamped elapsed divisor is always positive). -/
theorem claimC4_wrapped_rate (prev cur : NetworkUsageInfo) (e : ℚ)
    (hlt : cur.BytesReceived < prev.BytesReceived)
    (hp : prev.BytesReceived < 2 ^ 64) (he : 0 < e) :
    (calcRates prev cur e).RxRate
        = ((2 ^ 64 - (prev.BytesReceived - cur.BytesReceived) : Nat) : ℚ)
            / e * 8 / 1000000
    ∧ 0 < (calcRates prev cur e).RxRate
    ∧ (∀ e0 : ℚ, 0 < (if e0 < ratTenth then ratTenth else e0)) := by
  have hwrap : (calcRates prev cur e).RxRate
      = ((2 ^ 64 - (prev.BytesReceived - cur.BytesReceived) : Nat) : ℚ)
          / e * 8 / 1000000 := by
    unfold calcRates
    dsimp only
    rw [uint64Sub_wrap _ _ hlt hp]
  refine ⟨hwrap, ?_, ?_⟩
  · rw [hwrap]
    have hnum : (0 : ℚ) <
        ((2 ^ 64 - (prev.BytesReceived - cur.BytesReceived) : Nat) : ℚ) := by
      have : 0 < 2 ^ 64 - (prev.BytesReceived - cur.BytesReceived) := by omega
      exact_mod_cast this
    positivity
  · intro e0
    by_cases hcase : e0 < ratTenth
    · rw [if_pos hcase]
      norm_num [ratTenth]
    · rw [if_neg hcase]
      have h1 : ratTenth ≤ e0 := not_lt.mp hcase
      have h2 : (0 : ℚ) < ratTenth := by norm_num [ratTenth]
      linarith

/-- Witness for claim C4 (amended) at previous 1000, current 500,
elapsed 1. -/
theorem claimC4_witness :
    ((mkNetSnapshot "eth0" 500).BytesReceived
        < (mkNetSnapshot "eth0" 1000).BytesReceived
      ∧ (mkNetSnapshot "eth0" 1000).BytesReceived < 2 ^ 64
      ∧ (0 : ℚ) < 1)
    ∧ 0 < (calcRates (mkNetSnapshot "eth0" 1000) (mkNetSnapshot "eth0" 500) 1).RxRate :=
  ⟨⟨by decide, by decide, by decide⟩,
    (claimC4_wrapped_rate (mkNetSnapshot "eth0" 1000)
      (mkNetSnapshot "eth0" 500) 1 (by decide) (by decide) (by decide)).2.1⟩

/-! Generic facts about the two capped-append (FIFO eviction) shapes used by
updateTrafficHistory (drop 1) and StoreTemperatureHistory (drop to the last
C entries). -/

theorem capAppend_of_lt {α : Type} (l : List α) (x : α) (C : Nat)
    (h : l.length < C) :
    (if (l ++ [x]).length > C then (l ++ [x]).drop 1 else l ++ [x])
      = l ++ [x] := by
  rw [if_neg]
  simp only [List.length_append, List.length_cons, List.length_nil,
    gt_iff_lt, not_lt]
  omega

theorem capAppend_of_eq {α : Type} (l : List α) (x : α) (C : Nat)
    (h : l.length = C) (hC : 1 ≤ C) :
    (if (l ++ [x]).length > C then (l ++ [x]).drop 1 else l ++ [x])
      = l.drop 1 ++ [x] := by
  rw [if_pos, List.drop_append_of_le_length (by omega)]
  simp only [List.length_append, List.length_cons, List.length_nil,
    gt_iff_lt]
  omega

theorem capAppend_length_le {α : Type} (l : List α) (x : α) (C : Nat)
    (h : l.length ≤ C) :
    (if (l ++ [x]).length > C then (l ++ [x]).drop 1 else l ++ [x]).length
      ≤ C := by
  by_cases hgt : (l ++ [x]).length > C
  · rw [if_pos hgt]
    simp only [List.length_drop, List.length_append, List.length_cons,
      List.length_nil] at hgt ⊢
    omega
  · rw [if_neg hgt]
    simp only [List.length_append, List.length_cons, List.length_nil,
      gt_iff_lt, not_lt] at hgt
    simp only [List.length_append, List.length_cons, List.length_nil]
    omega

theorem capDrop_of_lt {α : Type} (l : List α) (x : α) (C : Nat)
    (h : l.length < C) :
    (if (l ++ [x]).length > C then
        (l ++ [x]).drop ((l ++ [x]).length - C) else l ++ [x])
      = l ++ [x] := by
  rw [if_neg]
  simp only [List.length_append, List.length_cons, List.length_nil,
    gt_iff_lt, not_lt]
  omega

theorem capDrop_of_eq {α : Type} (l : List α) (x : α) (C : Nat)
    (h : l.length = C) (hC : 1 ≤ C) :
    (if (l ++ [x]).length > C then
        (l ++ [x]).drop ((l ++ [x]).length - C) else l ++ [x])
      = l.drop 1 ++ [x] := by
  rw [if_pos]
  · have hlen : (l ++ [x]).length - C = 1 := by
      simp only [List.length_append, List.length_cons, List.length_nil]
      omega
    rw [hlen, List.drop_append_of_le_length (by omega)]
  · simp only [List.length_append, List.length_cons, List.length_nil,
      gt_iff_lt]
    omega

theorem capDrop_length_le {α : Type} (l : List α) (x : α) (C : Nat)
    (h : l.length ≤ C) :
    (if (l ++ [x]).length > C then
        (l ++ [x]).drop ((l ++ [x]).length - C) else l ++ [x]).length
      ≤ C := by
  by_cases hgt : (l ++ [x]).length > C
  · rw [if_pos hgt]
    simp only [List.length_drop, List.length_append, List.length_cons,
      List.length_nil] at hgt ⊢
    omega
  · rw [if_neg hgt]
    simp only [List.length_append, List.length_cons, List.length_nil,
      gt_iff_lt, not_lt] at hgt
    simp only [List.length_append, List.length_cons, List.length_nil]
    omega

set_option maxRecDepth 100000 in
/-- Claim C5: the traffic history (capacity 60) and the temperature history
(capacity 1440) keep entries in insertion order, append below capacity,
evict exactly the oldest entry when a push would exceed capacity, and never
exceed their capacity; pushing 61 samples into the empty traffic buffer
yields length 60 whose first element is the second pushed sample (the first
push, timestamp 0, was evicted). -/
theorem claimC5_history_eviction :
    (∀ (hist : List (String × List NetworkUsageInfo)) (iface : String)
        (rx tx : ℚ) (now : Nat),
      (((mapLookup iface hist).getD []).length < 60 →
        (mapLookup iface (updateTrafficHistory hist iface rx tx now)).getD []
          = ((mapLookup iface hist).getD []) ++
            [{ Interface := iface, BytesReceived := 0, BytesSent := 0,
               RxRate := rx, TxRate := tx, PacketsReceived := 0,
               PacketsSent := 0, Errors := 0, Timestamp := now }])
      ∧ (((mapLookup iface hist).getD []).length = 60 →
        (mapLookup iface (updateTrafficHistory hist iface rx tx now)).getD []
          = ((mapLookup iface hist).getD []).drop 1 ++
            [{ Interface := iface, BytesReceived := 0, BytesSent := 0,
               RxRate := rx, TxRate := tx, PacketsReceived := 0,
               PacketsSent := 0, Errors := 0, Timestamp := now }])
      ∧ (((mapLookup iface hist).getD []).length ≤ 60 →
        ((mapLookup iface (updateTrafficHistory hist iface rx tx now)).getD []).length ≤ 60))
    ∧ (∀ (hist : List TemperatureHistoryRecord) (info : TemperatureInfo)
        (now : Nat),
      (hist.length < 1440 →
        StoreTemperatureHistory hist info now
          = hist ++ [{ Timestamp := now, CPU := info.CPU, GPU := info.GPU,
                       Components := info.Components }])
      ∧ (hist.length = 1440 →
        StoreTemperatureHistory hist info now
          = hist.drop 1 ++ [{ Timestamp := now, CPU := info.CPU,
                              GPU := info.GPU,
                              Components := info.Components }])
      ∧ (hist.length ≤ 1440 →
        (StoreTemperatureHistory hist info now).length ≤ 1440))
    ∧ (((mapLookup "eth0"
          ((List.range 61).foldl
            (fun h i => updateTrafficHistory h "eth0" 0 0 i) [])).getD []).length = 60
      ∧ ((mapLookup "eth0"
          ((List.range 61).foldl
            (fun h i => updateTrafficHistory h "eth0" 0 0 i) [])).getD []).head?.map
            (fun e => e.Timestamp) = some 1) := by
  refine ⟨?_, ?_, by decide, by decide⟩
  · intro hist iface rx tx now
    unfold updateTrafficHistory
    cases hcase : mapLookup iface hist with
    | none =>
      simp only [hcase, Option.isNone_none, if_true, Option.getD_none,
        mapLookup_mapInsert_self, Option.getD_some, List.nil_append]
      refine ⟨fun _ => ?_, fun h60 => ?_, fun _ => ?_⟩
      · exact capAppend_of_lt [] _ historyLength (by simp [historyLength])
      · simp at h60
      · exact capAppend_length_le [] _ historyLength (by simp [historyLength])
    | some l =>
      simp only [hcase, Option.isNone_some, Bool.false_eq_true, if_false,
        Option.getD_some, mapLookup_mapInsert_self]
      refine ⟨fun hlt => ?_, fun h60 => ?_, fun hle => ?_⟩
      · exact capAppend_of_lt l _ historyLength hlt
      · exact capAppend_of_eq l _ historyLength h60 (by decide)
      · exact capAppend_length_le l _ historyLength hle
  · intro hist info now
    unfold StoreTemperatureHistory
    dsimp only
    refine ⟨fun hlt => ?_, fun h1440 => ?_, fun hle => ?_⟩
    · exact capDrop_of_lt hist _ 1440 hlt
    · exact capDrop_of_eq hist _ 1440 h1440 (by omega)
    · exact capDrop_length_le hist _ 1440 hle

/-- Witness for claim C5 at the empty history and one push. -/
theorem claimC5_witness :
    ((mapLookup "eth0"
        ([] : List (String × List NetworkUsageInfo))).getD []).length < 60
    ∧ (mapLookup "eth0" (updateTrafficHistory [] "eth0" 0 0 5)).getD []
        = ((mapLookup "eth0"
            ([] : List (String × List NetworkUsageInfo))).getD []) ++
          [{ Interface := "eth0", BytesReceived := 0, BytesSent := 0,
             RxRate := 0, TxRate := 0, PacketsReceived := 0,
             PacketsSent := 0, Errors := 0, Timestamp := 5 }] :=
  ⟨by decide, (claimC5_history_eviction.1 [] "eth0" 0 0 5).1 (by decide)⟩

/-- Counterexample to claim C9 as stated: when the path has a non-empty
cache entry, getLogEntries on a missing/unreadable file serves the cache, a
non-empty result, rather than the claimed empty entry set. -/
theorem claimC9_counterexample :
    (getLogEntries trZero
      { stat := fun _ => none, readLines := fun _ => none }
      { logCache := [("/var/log/syslog",
          [{ Timestamp := 0, Content := "x", Level := "info",
             Source := "/var/log/syslog" }])], logWatchers := [] }
      "/var/log/syslog" 20 true).1 ≠ [] := by
  decide

/-- Claim C9 (amended): when no non-empty cache entry exists for the path,
getLogEntries on an unreadable or missing file (open error, or stat error)
returns an empty entry set and leaves the state untouched — the embedding
is a total function, so no error reaches the caller; when a non-empty cache
entry exists it is served instead. On the poller side, a stat or open error
in checkLogFileChanges leaves the cache and the watcher bookkeeping
completely unchanged, so the poller just retries on the next tick. -/
theorem claimC9_watcher_error_handling :
    (∀ (tr : TimestampRecognizer) (fs : FileSys) (st : LogState)
        (path : String) (n : ℤ) (dbg : Bool),
      mapLookup path st.logCache = none →
      fs.readLines path = none →
      getLogEntries tr fs st path n dbg = ([], st))
    ∧ (∀ (tr : TimestampRecognizer) (fs : FileSys) (st : LogState)
        (path : String) (n : ℤ) (dbg : Bool) (lines : List String),
      mapLookup path st.logCache = none →
      fs.readLines path = some lines →
      fs.stat path = none →
      getLogEntries tr fs st path n dbg = ([], st))
    ∧ (∀ (tr : TimestampRecognizer) (fs : FileSys)
        (cache : List (String × List LogEntry)) (w : LogWatcher),
      fs.stat w.filePath = none →
      checkLogFileChanges tr fs cache w = (cache, w))
    ∧ (∀ (tr : TimestampRecognizer) (fs : FileSys)
        (cache : List (String × List LogEntry)) (w : LogWatcher)
        (fi : FileInfo),
      fs.stat w.filePath = some fi →
      fs.readLines w.filePath = none →
      checkLogFileChanges tr fs cache w = (cache, w)) := by
  refine ⟨?_, ?_, ?_, ?_⟩
  · intro tr fs st path n dbg hcache hread
    unfold getLogEntries getLogEntriesRead
    rw [hcache, hread]
  · intro tr fs st path n dbg lines hcache hread hstat
    unfold getLogEntries getLogEntriesRead
    rw [hcache, hread, hstat]
  · intro tr fs cache w hstat
    unfold checkLogFileChanges
    rw [hstat]
  · intro tr fs cache w fi hstat hread
    unfold checkLogFileChanges
    simp only [hstat]
    by_cases hch : fi.size ≠ w.lastSize ∨ fi.modTime ≠ w.lastModTime
    · rw [if_pos hch, hread]
    · rw [if_neg hch]

/-- Witness for claim C9 (amended) at an empty cache and a filesystem with
no readable files. -/
theorem claimC9_witness :
    (mapLookup "/var/log/syslog"
        ({ logCache := [], logWatchers := [] } : LogState).logCache = none
      ∧ ({ stat := fun _ => none, readLines := fun _ => none } : FileSys).readLines
          "/var/log/syslog" = none)
    ∧ getLogEntries trZero
        { stat := fun _ => none, readLines := fun _ => none }
        { logCache := [], logWatchers := [] }
        "/var/log/syslog" 20 false
      = ([], { logCache := [], logWatchers := [] }) :=
  ⟨⟨rfl, rfl⟩,
    claimC9_watcher_error_handling.1 trZero
      { stat := fun _ => none, readLines := fun _ => none }
      { logCache := [], logWatchers := [] }
      "/var/log/syslog" 20 false rfl rfl⟩

/-! Order-theoretic facts about the section comparator. -/

theorem charsLtb_nil_right : ∀ l : List Char, charsLtb l [] = false
  | [] => rfl
  | _ :: _ => rfl

theorem char_toNat_inj {a b : Char} (h : a.toNat = b.toNat) : a = b :=
  Char.ext (UInt32.toNat.inj h)

theorem charsLtb_asymm : ∀ x y : List Char,
    charsLtb x y = true → charsLtb y x = false
  | [], [] => by intro h; cases h
  | [], _ :: _ => fun _ => rfl
  | _ :: _, [] => by intro h; cases h
  | a :: as, b :: bs => by
    intro h
    unfold charsLtb at h ⊢
    by_cases h1 : a.toNat < b.toNat
    · rw [if_neg (by omega), if_pos h1]
    · rw [if_neg h1] at h
      by_cases h2 : b.toNat < a.toNat
      · rw [if_pos h2] at h
        cases h
      · rw [if_neg h2] at h
        rw [if_neg h2, if_neg h1]
        exact charsLtb_asymm as bs h

theorem charsLtb_eq_of_not : ∀ x y : List Char,
    charsLtb x y = false → charsLtb y x = false → x = y
  | [], [] => fun _ _ => rfl
  | [], _ :: _ => by intro h _; cases h
  | _ :: _, [] => by intro _ h; cases h
  | a :: as, b :: bs => by
    intro h1 h2
    unfold charsLtb at h1 h2
    by_cases hab : a.toNat < b.toNat
    · rw [if_pos hab] at h1
      cases h1
    · by_cases hba : b.toNat < a.toNat
      · rw [if_pos hba] at h2
        cases h2
      · rw [if_neg hab, if_neg hba] at h1
        rw [if_neg hba, if_neg hab] at h2
        have hchar : a = b := char_toNat_inj (by omega)
        rw [hchar, charsLtb_eq_of_not as bs h1 h2]

theorem charsLtb_lin : ∀ c a b : List Char, charsLtb c a = true →
    charsLtb c b = true ∨ charsLtb b a = true
  | c, [], b => by
    intro h
    rw [charsLtb_nil_right] at h
    cases h
  | [], _ :: _, [] => fun _ => Or.inr rfl
  | [], _ :: _, _ :: _ => fun _ => Or.inl rfl
  | _ :: _, _ :: _, [] => fun _ => Or.inr rfl
  | c :: cs, a :: as, b :: bs => by
    intro h
    unfold charsLtb at h ⊢
    by_cases hca : c.toNat < a.toNat
    · by_cases hcb : c.toNat < b.toNat
      · left
        rw [if_pos hcb]
      · right
        rw [if_pos (show b.toNat < a.toNat by omega)]
    · rw [if_neg hca] at h
      by_cases hac : a.toNat < c.toNat
      · rw [if_pos hac] at h
        cases h
      · rw [if_neg hac] at h
        by_cases hcb : c.toNat < b.toNat
        · left
          rw [if_pos hcb]
        · by_cases hbc : b.toNat < c.toNat
          · right
            rw [if_pos (show b.toNat < a.toNat by omega)]
          · rcases charsLtb_lin cs as bs h with h1 | h1
            · left
              rw [if_neg hcb, if_neg hbc]
              exact h1
            · right
              rw [if_neg (show ¬ b.toNat < a.toNat by omega),
                if_neg (show ¬ a.toNat < b.toNat by omega)]
              exact h1

theorem goStrLt_asymm {a b : String} (h : goStrLt a b) : ¬ goStrLt b a := by
  unfold goStrLt at h ⊢
  rw [charsLtb_asymm a.data b.data h]
  exact Bool.false_ne_true

theorem goStrLe_antisymm {a b : String} (h1 : goStrLe a b) (h2 : goStrLe b a) :
    a = b := by
  unfold goStrLe goStrLt at h1 h2
  apply String.ext
  exact charsLtb_eq_of_not a.data b.data
    (Bool.not_eq_true _ ▸ h2) (Bool.not_eq_true _ ▸ h1)

theorem sectionOrd_mem {a : String} {i : Nat} (h : sectionOrd a = some i) :
    (a, i) ∈ sectionOrderL := by
  obtain ⟨l1, l2, heq, -⟩ := List.lookup_eq_some_iff.mp h
  rw [heq]
  exact List.mem_append.mpr (Or.inr (List.mem_cons_self _ _))

theorem sectionOrderL_inj : ∀ p ∈ sectionOrderL, ∀ q ∈ sectionOrderL,
    p.2 = q.2 → p.1 = q.1 := by
  decide

theorem sectionOrd_isSome_iff (x : String) :
    (sectionOrd x).isSome ↔ x ∈ sectionOrderL.map Prod.fst := by
  unfold sectionOrd
  rw [List.lookup_isSome_iff]
  constructor
  · rintro ⟨p, hp, hbeq⟩
    exact List.mem_map.mpr ⟨p, hp, (beq_iff_eq.mp hbeq).symm⟩
  · intro hm
    obtain ⟨p, hp, hfx⟩ := List.mem_map.mp hm
    exact ⟨p, hp, beq_iff_eq.mpr hfx.symm⟩

theorem sectionLt_asymm {a b : String} (h : sectionLt a b) : ¬ sectionLt b a := by
  cases ha : sectionOrd a <;> cases hb : sectionOrd b <;>
    simp only [sectionLt, ha, hb] at h ⊢
  · exact goStrLt_asymm h
  · exact fun hf => hf
  · omega

theorem sectionLt_lin (a b c : String) (h : sectionLt c a) :
    sectionLt c b ∨ sectionLt b a := by
  cases hc : sectionOrd c <;> cases ha : sectionOrd a <;>
    cases hb : sectionOrd b <;> simp only [sectionLt, hc, ha, hb] at h ⊢
  · exact charsLtb_lin c.data a.data b.data h
  · exact Or.inr trivial
  · exact Or.inl trivial
  · exact Or.inr trivial
  · exact Or.inl trivial
  · rename_i i j k
    by_cases hik : i < k
    · exact Or.inl hik
    · exact Or.inr (by omega)

instance : IsTotal String sectionLe where
  total a b := by
    by_cases h : sectionLt b a
    · exact Or.inr (sectionLt_asymm h)
    · exact Or.inl h

instance : IsTrans String sectionLe where
  trans a b c h1 h2 := by
    intro h3
    rcases sectionLt_lin a b c h3 with h4 | h4
    · exact h2 h4
    · exact h1 h4

instance : IsAntisymm String sectionLe where
  antisymm a b h1 h2 := by
    unfold sectionLe at h1 h2
    cases ha : sectionOrd a <;> cases hb : sectionOrd b <;>
      simp only [sectionLt, ha, hb] at h1 h2
    · exact goStrLe_antisymm h1 h2
    · exact absurd trivial h1
    · exact absurd trivial h2
    · rename_i i j
      have hij : i = j := by omega
      exact sectionOrderL_inj (a, i) (sectionOrd_mem ha) (b, j)
        (sectionOrd_mem hb) hij

instance : IsTotal String goStrLe where
  total a b := by
    by_cases h : goStrLt b a
    · exact Or.inr (goStrLt_asymm h)
    · exact Or.inl h

instance : IsTrans String goStrLe where
  trans a b c h1 h2 := by
    intro h3
    rcases charsLtb_lin c.data a.data b.data h3 with h4 | h4
    · exact h2 h4
    · exact h1 h4

theorem mem_spec_B_iff (names : List String) (a : String) :
    a ∈ List.insertionSort goStrLe
        (names.filter (fun n => (sectionOrd n).isNone))
      ↔ a ∈ names ∧ (sectionOrd a).isNone = true := by
  rw [(List.perm_insertionSort goStrLe _).mem_iff, List.mem_filter]

theorem mem_spec_A_iff (names : List String) (a : String) :
    a ∈ (sectionOrderL.map Prod.fst).filter (fun n => names.contains n)
      ↔ a ∈ sectionOrderL.map Prod.fst ∧ a ∈ names := by
  rw [List.mem_filter]
  simp

theorem specSectionOrder_nodup (names : List String) (hnd : names.Nodup) :
    (specSectionOrder names).Nodup := by
  unfold specSectionOrder
  apply List.Nodup.append
  · exact List.Nodup.filter _ (by decide)
  · exact (List.perm_insertionSort goStrLe _).nodup_iff.mpr
      (List.Nodup.filter _ hnd)
  · intro x hxA hxB
    have hsome : (sectionOrd x).isSome :=
      (sectionOrd_isSome_iff x).mpr ((mem_spec_A_iff names x).mp hxA).1
    have hnone : (sectionOrd x).isNone = true :=
      ((mem_spec_B_iff names x).mp hxB).2
    rw [Option.isNone_iff_eq_none.mp hnone] at hsome
    cases hsome

theorem specSectionOrder_perm (names : List String) (hnd : names.Nodup) :
    names.Perm (specSectionOrder names) := by
  apply (List.perm_ext_iff_of_nodup hnd (specSectionOrder_nodup names hnd)).mpr
  intro a
  unfold specSectionOrder
  rw [List.mem_append, mem_spec_A_iff, mem_spec_B_iff]
  constructor
  · intro ha
    cases hsome : (sectionOrd a).isSome
    · refine Or.inr ⟨ha, ?_⟩
      cases hval : sectionOrd a
      · rfl
      · rw [hval] at hsome
        cases hsome
    · exact Or.inl ⟨(sectionOrd_isSome_iff a).mp hsome, ha⟩
  · intro ha
    rcases ha with ⟨-, ha⟩ | ⟨ha, -⟩ <;> exact ha

theorem specSectionOrder_sorted (names : List String) :
    List.Sorted sectionLe (specSectionOrder names) := by
  unfold specSectionOrder
  apply List.pairwise_append.mpr
  refine ⟨?_, ?_, ?_⟩
  · exact List.Pairwise.sublist (List.filter_sublist _)
      (by decide : List.Pairwise sectionLe (sectionOrderL.map Prod.fst))
  · have hsorted : List.Pairwise goStrLe
        (List.insertionSort goStrLe
          (names.filter (fun n => (sectionOrd n).isNone))) :=
      List.sorted_insertionSort goStrLe _
    refine List.Pairwise.imp_of_mem ?_ hsorted
    intro x y hx hy hle
    have hxn : (sectionOrd x).isNone = true := ((mem_spec_B_iff names x).mp hx).2
    have hyn : (sectionOrd y).isNone = true := ((mem_spec_B_iff names y).mp hy).2
    simp only [sectionLe, sectionLt, Option.isNone_iff_eq_none.mp hxn,
      Option.isNone_iff_eq_none.mp hyn]
    exact hle
  · intro x hx y hy
    have hxs : (sectionOrd x).isSome :=
      (sectionOrd_isSome_iff x).mpr ((mem_spec_A_iff names x).mp hx).1
    have hyn : (sectionOrd y).isNone = true := ((mem_spec_B_iff names y).mp hy).2
    obtain ⟨i, hi⟩ := Option.isSome_iff_exists.mp hxs
    simp only [sectionLe, sectionLt, hi, Option.isNone_iff_eq_none.mp hyn]
    exact fun hf => hf

/-- Counterexample to claim C8 as stated: the components.go ordering
function appends the non-priority sections in the Go map's (randomised)
iteration order, so for the key set {Alpha, Beta} the output is neither
lexicographically sorted nor a function of the set alone — two enumeration
orders of the same set give different results. -/
theorem claimC8_counterexample :
    GetSortedSectionNames ["Beta", "Alpha"] = ["Beta", "Alpha"]
    ∧ GetSortedSectionNames ["Beta", "Alpha"]
        ≠ GetSortedSectionNames ["Alpha", "Beta"] := by
  constructor
  · decide
  · decide

/-- Claim C8 (amended): the part_003 ordering function getSortedSectionNames
does satisfy the claim — for any duplicate-free key list it returns the
priority-map sections present, in priority order, followed by the remaining
sections sorted lexicographically (byte-wise), and its output is invariant
under re-enumeration of the same key set, hence a deterministic function of
the set; the components.go GetSortedSectionNames does not (see the
counterexample). -/
theorem claimC8_section_ordering :
    (∀ names : List String, names.Nodup →
      getSortedSectionNames names = specSectionOrder names)
    ∧ (∀ l1 l2 : List String, l1.Perm l2 →
      getSortedSectionNames l1 = getSortedSectionNames l2)
    ∧ getSortedSectionNames ["Beta", "Alpha", "CPU"]
        = ["CPU", "Alpha", "Beta"] := by
  refine ⟨?_, ?_, by decide⟩
  · intro names hnd
    exact List.eq_of_perm_of_sorted
      ((List.perm_insertionSort sectionLe names).trans
        (specSectionOrder_perm names hnd))
      (List.sorted_insertionSort sectionLe names)
      (specSectionOrder_sorted names)
  · intro l1 l2 h12
    exact List.eq_of_perm_of_sorted
      ((List.perm_insertionSort sectionLe l1).trans
        (h12.trans (List.perm_insertionSort sectionLe l2).symm))
      (List.sorted_insertionSort sectionLe l1)
      (List.sorted_insertionSort sectionLe l2)

/-- Witness for claim C8 (amended) at a concrete duplicate-free key list. -/
theorem claimC8_witness :
    (["Beta", "Alpha", "CPU"] : List String).Nodup
    ∧ getSortedSectionNames ["Beta", "Alpha", "CPU"]
        = specSectionOrder ["Beta", "Alpha", "CPU"] :=
  ⟨by decide, claimC8_section_ordering.1 ["Beta", "Alpha", "CPU"] (by decide)⟩

end Whosay
